import Mathlib

/-!
Shallow embedding of `src/server.js` (EduPath backend).

The server keeps three file-backed collections — accounts (`accounts.json`),
universities (`universities.json`), applications (`applications.json`) — and
exposes HTTP routes that each perform a load / transform / save cycle.  We
embed every route as a pure Lean function from the relevant collection(s) and
the decoded request to a pair of (HTTP status, response body) and the
collection(s) after the call.  Nondeterministic externals are parameters:

* `hash` models `bcrypt.hash(password, 10)` (salted, so just an arbitrary
  function of the plaintext for our purposes);
* `verify` models `bcrypt.compare(plaintext, digest)`;
* `now : Nat` models `Date.now()`; `nowISO : String` models
  `new Date().toISOString()`.

JavaScript truthiness on a request field (`!name`) is modelled on
`Option String`: `none` is `undefined` (field absent) and `some ""` is the
falsy empty string; every other string is truthy.
-/

/-- JSON-like values, used both for response bodies (so that theorems can
talk about exactly which keys a response carries) and, in the storage-layer
model, for the result of `JSON.parse` on a backing file. -/
inductive JValue where
  | null
  | bool (b : Bool)
  | num (n : Int)
  | str (s : String)
  | arr (elems : List JValue)
  | obj (fields : List (String × JValue))

/-- Keys of a JSON object (empty for non-objects). -/
def jKeys : JValue → List String
  | .obj fields => fields.map Prod.fst
  | _ => []

/-- JavaScript truthiness of an optional string request field: `undefined`
and `""` are falsy, every other string is truthy. -/
def truthy : Option String → Bool
  | none => false
  | some s => !s.isEmpty

/-- `hay.includes(needle)` on character lists (JS `String.prototype.includes`). -/
def charsContain (hay needle : List Char) : Bool :=
  match hay with
  | [] => needle.isEmpty
  | _ :: t => needle.isPrefixOf hay || charsContain t needle

/-- `hay.includes(needle)` for strings. -/
def strIncludes (hay needle : String) : Bool :=
  charsContain hay.toList needle.toList

/-- JS `String.prototype.toLowerCase`, modelled character-wise. -/
def jsLower (s : String) : String := String.mk (s.data.map Char.toLower)

/-- An account record as stored in `accounts.json` (`server.js:41`). -/
structure Account where
  id : String
  name : String
  email : String
  passwordHash : String
deriving DecidableEq, Repr

/-- Decoded body of `POST /api/signup` (`server.js:32`); each field may be
absent. -/
structure SignupReq where
  name : Option String
  email : Option String
  password : Option String
deriving DecidableEq, Repr

/-- `POST /api/signup` (`server.js:31-46`).  Arguments: the password hasher,
`Date.now()`, the stored accounts (the `users` array read by `readDB`), and
the request body.  Returns the HTTP response (status, JSON body) and the
accounts collection after the call (what `writeDB` persisted, or the input
unchanged when no write happened). -/
def signup (hash : String → String) (now : Nat) (users : List Account)
    (req : SignupReq) : (Nat × JValue) × List Account :=
  if !(truthy req.name && truthy req.email && truthy req.password) then
    ((400, .obj [("error", .str "Missing fields")]), users)
  else
    let email := req.email.getD ""
    let name := req.name.getD ""
    let password := req.password.getD ""
    if users.any (fun u => jsLower u.email == jsLower email) then
      ((409, .obj [("error", .str "Email already registered")]), users)
    else
      let user : Account :=
        { id := toString now, name := name, email := email,
          passwordHash := hash password }
      ((201, .obj [("id", .str user.id), ("name", .str user.name),
                   ("email", .str user.email)]),
       users ++ [user])

/-- `POST /api/login` (`server.js:49-62`).  The route never writes the
store, so only the response is returned. -/
def login (verify : String → String → Bool) (users : List Account)
    (email password : Option String) : Nat × JValue :=
  if !(truthy email && truthy password) then
    (400, .obj [("error", .str "Missing fields")])
  else
    let e := email.getD ""
    let p := password.getD ""
    match users.find? (fun u => jsLower u.email == jsLower e) with
    | none => (401, .obj [("error", .str "Invalid email or password")])
    | some u =>
      if verify p u.passwordHash then
        (200, .obj [("id", .str u.id), ("name", .str u.name),
                    ("email", .str u.email)])
      else
        (401, .obj [("error", .str "Invalid email or password")])

/-- The accounts collection states reachable through the server's only
account-mutating operation, signup, starting from the empty store. -/
inductive ReachableAccounts : List Account → Prop where
  | nil : ReachableAccounts []
  | step (hash : String → String) (now : Nat) (users : List Account)
      (req : SignupReq) : ReachableAccounts users →
      ReachableAccounts (signup hash now users req).2

/-- No two accounts have emails equal ignoring case. -/
def emailsOk (users : List Account) : Prop :=
  List.Pairwise (fun a b => jsLower a.email ≠ jsLower b.email) users

instance emailsOkDec : (l : List Account) → Decidable (emailsOk l)
  | [] => isTrue List.Pairwise.nil
  | a :: t =>
    have : Decidable (emailsOk t) := emailsOkDec t
    decidable_of_iff ((∀ b ∈ t, jsLower a.email ≠ jsLower b.email) ∧ emailsOk t)
      (by simp [emailsOk, List.pairwise_cons])

/-- A college sub-record of an institution (`universities.json`). -/
structure College where
  name : String
deriving DecidableEq, Repr

/-- An institution record as stored in `universities.json`.  The source
field `type` is a reserved word in Lean, so it is embedded as `utype`. -/
structure Institution where
  id : Nat
  name : String
  utype : String
  colleges : List College
deriving DecidableEq, Repr

/-- Decoded query string of `GET /api/universities` (`server.js:79`): the
`q`, `type` and `college` parameters, each possibly absent.  The source
`type` parameter is embedded as `utype`. -/
structure UniQuery where
  q : Option String
  utype : Option String
  college : Option String
deriving DecidableEq, Repr

/-- `GET /api/universities` (`server.js:78-94`): applies the three optional
filters in sequence (each gated on JS truthiness of the parameter) and
returns the filtered list together with `total = data.length`. -/
def queryUniversities (store : List Institution) (f : UniQuery) :
    List Institution × Nat :=
  let d0 := store
  let d1 := if truthy f.q then
      d0.filter (fun u => strIncludes (jsLower u.name) (jsLower (f.q.getD "")))
    else d0
  let d2 := if truthy f.utype then
      d1.filter (fun u => u.utype == f.utype.getD "")
    else d1
  let d3 := if truthy f.college then
      d2.filter (fun u => u.colleges.any (fun c => c.name == f.college.getD ""))
    else d2
  (d3, d3.length)

/-- `GET /api/universities/:id` (`server.js:97-102`): first stored
institution with the given id, `none` modelling the 404 response. -/
def getUniversity (store : List Institution) (id : Nat) : Option Institution :=
  store.find? (fun u => u.id == id)

/-- `POST /api/universities` (`server.js:223-230`): overwrites the body's
`id` with `Date.now()`, appends, persists; responds 201 with the stored
record. -/
def createUniversity (now : Nat) (store : List Institution)
    (body : Institution) : (Nat × Institution) × List Institution :=
  let newUni := { body with id := now }
  ((201, newUni), store ++ [newUni])

/-- `PUT /api/universities/:id` (`server.js:207-220`): finds the index of
the stored record with the path id (404 and no write when absent), forces
the body's `id` to the path id, and replaces the record at that index.
The response carries the stored record on success, `none` on 404. -/
def replaceUniversity (store : List Institution) (id : Nat)
    (body : Institution) : (Nat × Option Institution) × List Institution :=
  match store.findIdx? (fun u => u.id == id) with
  | none => ((404, none), store)
  | some i =>
    let updatedUni := { body with id := id }
    ((200, some updatedUni), store.set i updatedUni)

/-- `DELETE /api/universities/:id` (`server.js:233-240`): removes every
record with the path id; 404 and no write when nothing matched. -/
def deleteUniversity (store : List Institution) (id : Nat) :
    (Nat × Option String) × List Institution :=
  let filtered := store.filter (fun u => u.id != id)
  if store.length == filtered.length then ((404, none), store)
  else ((200, some "Deleted successfully"), filtered)

/-- An application record as stored in `applications.json`
(`server.js:147-161`).  Fields the route copies from the request without
checking (`total`, `paymentMethod`, `applicantEmail`) stay optional, since
the JS destructuring leaves them `undefined` when absent. -/
structure Application where
  id : Nat
  userId : String
  fullName : String
  birthDate : String
  nationalId : String
  address : String
  phoneNumber : String
  total : Option String
  paymentMethod : Option String
  applicantEmail : Option String
  college : String
  status : String
  submittedAt : String
deriving DecidableEq, Repr

/-- Decoded body of `POST /api/apply` (`server.js:132`); `email` is the
`applicantEmail` of the spec. -/
structure ApplyReq where
  fullName : Option String
  birthDate : Option String
  nationalId : Option String
  address : Option String
  phoneNumber : Option String
  total : Option String
  paymentMethod : Option String
  college : Option String
  email : Option String
deriving DecidableEq, Repr

/-- `POST /api/apply` (`server.js:131-170`).  Checks truthiness of the six
required fields, then looks the applicant up by exact (`===`) email match
against the accounts store, then appends the new application.  Returns the
HTTP status (the 201 body carries the new application's id) and the
applications collection after the call. -/
def submitApplication (users : List Account) (apps : List Application)
    (now : Nat) (nowISO : String) (req : ApplyReq) :
    (Nat × Option Nat) × List Application :=
  if !(truthy req.fullName && truthy req.birthDate && truthy req.nationalId &&
       truthy req.address && truthy req.phoneNumber && truthy req.college) then
    ((400, none), apps)
  else
    match users.find? (fun u => req.email == some u.email) with
    | none => ((403, none), apps)
    | some user =>
      let newApplication : Application :=
        { id := now, userId := user.id,
          fullName := req.fullName.getD "", birthDate := req.birthDate.getD "",
          nationalId := req.nationalId.getD "", address := req.address.getD "",
          phoneNumber := req.phoneNumber.getD "",
          total := req.total, paymentMethod := req.paymentMethod,
          applicantEmail := req.email, college := req.college.getD "",
          status := "Pending", submittedAt := nowISO }
      ((201, some newApplication.id), apps ++ [newApplication])

/-- `GET /api/applications/count` (`server.js:173-180`): 400 when the email
parameter is falsy, otherwise the count of applications whose
`applicantEmail` matches exactly. -/
def countApplications (apps : List Application) (email : Option String) :
    Nat × Option Nat :=
  if !(truthy email) then (400, none)
  else (200, some (apps.filter (fun a => a.applicantEmail == email)).length)

/-- `DELETE /api/applications/:id` (`server.js:190-197`): removes every
application with the path id; 404 and no write when nothing matched. -/
def deleteApplication (apps : List Application) (id : Nat) :
    (Nat × Option String) × List Application :=
  let filtered := apps.filter (fun a => a.id != id)
  if apps.length == filtered.length then ((404, none), apps)
  else ((200, some "Deleted successfully"), filtered)

/-!
Storage layer (claim C4).  `readDB`, `readUniversities` and
`readApplications` each wrap `fs.readFileSync` + `JSON.parse` in a
`try/catch`.  We model the combined outcome of that pair as an input of
type `Except Unit JValue`: `.error ()` stands for "the file is absent or
unreadable, or its contents are not valid JSON" (either `readFileSync` or
`JSON.parse` threw, so the `catch` branch runs); `.ok v` stands for "the
file contents parsed to the JSON value `v`" (an empty file hits the
`raw || <default>` fallback in the source and corresponds to `.ok` of the
parsed default).  `JSON.parse` output never has duplicate object keys, so
field lookup by first match is faithful.
-/

/-- First value bound to a key in a JSON object's field list. -/
def lookupField (fields : List (String × JValue)) (k : String) : Option JValue :=
  match fields with
  | [] => none
  | (k', v) :: rest => if k' = k then some v else lookupField rest k

/-- JS property access `v[k]`: throws (`.error`) on `null`, yields the
field (or `undefined`, modelled `none`) on objects, and `undefined` on any
other value. -/
def jsGet (v : JValue) (k : String) : Except Unit (Option JValue) :=
  match v with
  | .null => .error ()
  | .obj fields => .ok (lookupField fields k)
  | _ => .ok none

/-- `readDB` (`server.js:18-25`): returns the parsed value unchanged —
with no shape validation — and `{"users":[]}` only when reading or parsing
threw. -/
def readDB (input : Except Unit JValue) : JValue :=
  match input with
  | .error _ => .obj [("users", .arr [])]
  | .ok v => v

/-- The accounts-collection load as every caller consumes it: `readDB()`
followed by the `db.users.<array method>` access done by signup
(`server.js:36`), login (`server.js:54`) and apply (`server.js:141`).
`some xs` is the loaded sequence; `none` models the `TypeError` those
callers throw when `users` is missing or not an array (surfaced to the
HTTP client as a 500, not caught anywhere in the source). -/
def dbUsers (input : Except Unit JValue) : Option (List JValue) :=
  match jsGet (readDB input) "users" with
  | .error _ => none
  | .ok (some (.arr xs)) => some xs
  | .ok _ => none

/-- `readUniversities` (`server.js:67-75`): the `items` field when it is an
array, `[]` otherwise (including when reading, parsing, or the `.items`
access threw). -/
def readUniversities (input : Except Unit JValue) : List JValue :=
  match input with
  | .error _ => []
  | .ok json =>
    match jsGet json "items" with
    | .error _ => []
    | .ok (some (.arr xs)) => xs
    | .ok _ => []

/-- `readApplications` (`server.js:109-118`): the parsed value when it is
an array, `[]` otherwise. -/
def readApplications (input : Except Unit JValue) : List JValue :=
  match input with
  | .error _ => []
  | .ok (.arr xs) => xs
  | .ok _ => []

/-- Whether a parsed value has the shape `readDB`'s callers require of
`accounts.json`: an object whose `users` field is an array. -/
def hasUsersArray : JValue → Bool
  | .obj fields =>
    match lookupField fields "users" with
    | some (.arr _) => true
    | _ => false
  | _ => false

/-- Whether a parsed value has the shape `readUniversities` requires of
`universities.json`: an object whose `items` field is an array. -/
def hasItemsArray : JValue → Bool
  | .obj fields =>
    match lookupField fields "items" with
    | some (.arr _) => true
    | _ => false
  | _ => false

/-- Whether a parsed value has the shape `readApplications` requires of
`applications.json`: a top-level array. -/
def isArrayValue : JValue → Bool
  | .arr _ => true
  | _ => false

/-!
Whole-server state (claim C10).  Each route touches at most the
collections below; the wrappers lift the per-collection operations to the
full state so that "no backing store is written on error" is one statement
about all three collections.
-/

/-- The three persisted collections. -/
structure ServerState where
  users : List Account
  universities : List Institution
  applications : List Application
deriving DecidableEq, Repr

/-- `POST /api/signup` on the full state. -/
def signupS (hash : String → String) (now : Nat) (s : ServerState)
    (req : SignupReq) : (Nat × JValue) × ServerState :=
  let r := signup hash now s.users req
  (r.1, { s with users := r.2 })

/-- `POST /api/login` on the full state (the route never writes). -/
def loginS (verify : String → String → Bool) (s : ServerState)
    (email password : Option String) : (Nat × JValue) × ServerState :=
  (login verify s.users email password, s)

/-- `POST /api/apply` on the full state. -/
def submitS (s : ServerState) (now : Nat) (nowISO : String) (req : ApplyReq) :
    (Nat × Option Nat) × ServerState :=
  let r := submitApplication s.users s.applications now nowISO req
  (r.1, { s with applications := r.2 })

/-- `PUT /api/universities/:id` on the full state. -/
def replaceUniversityS (s : ServerState) (id : Nat) (body : Institution) :
    (Nat × Option Institution) × ServerState :=
  let r := replaceUniversity s.universities id body
  (r.1, { s with universities := r.2 })

/-- `POST /api/universities` on the full state. -/
def createUniversityS (now : Nat) (s : ServerState) (body : Institution) :
    (Nat × Institution) × ServerState :=
  let r := createUniversity now s.universities body
  (r.1, { s with universities := r.2 })

/-- `DELETE /api/universities/:id` on the full state. -/
def deleteUniversityS (s : ServerState) (id : Nat) :
    (Nat × Option String) × ServerState :=
  let r := deleteUniversity s.universities id
  (r.1, { s with universities := r.2 })

/-- `DELETE /api/applications/:id` on the full state. -/
def deleteApplicationS (s : ServerState) (id : Nat) :
    (Nat × Option String) × ServerState :=
  let r := deleteApplication s.applications id
  (r.1, { s with applications := r.2 })

/-- A sequence of signup calls (claims C1/C3): each element carries its
`Date.now()` value and request body. -/
def runSignups (hash : String → String) (users : List Account) :
    List (Nat × SignupReq) → List Account
  | [] => users
  | (now, req) :: rest => runSignups hash (signup hash now users req).2 rest

/-- A concrete stand-in for the bcrypt hasher in witnesses. -/
def demoHash : String → String := fun s => "H" ++ s

/-- A concrete stand-in for bcrypt verification in witnesses: accepts a
password against exactly the digest `demoHash` produces for it. -/
def demoVerify : String → String → Bool := fun p d => d == demoHash p

/-- The account created by the demo signup below. -/
def anaAccount : Account :=
  { id := "0", name := "Ana", email := "Ana@X.com", passwordHash := demoHash "pw123" }

/-- Accounts store after one successful demo signup. -/
def demoUsers : List Account :=
  (signup demoHash 0 [] ⟨some "Ana", some "Ana@X.com", some "pw123"⟩).2

/-- A concrete institution for witnesses (the spec's §8 scenario record). -/
def alphaU : Institution :=
  { id := 1, name := "Alpha U", utype := "Public", colleges := [⟨"Engineering"⟩] }

/-- Spec-side match predicate for the institution query, written from the
spec's words: all supplied filters are conjunctive; the name filter is a
case-insensitive substring match on the institution name; the type filter
is an exact match; the college filter matches iff some element of the
colleges sequence has exactly that name. -/
def specMatches (f : UniQuery) (u : Institution) : Bool :=
  (match f.q with
   | none => true
   | some s => strIncludes (jsLower u.name) (jsLower s))
  && (match f.utype with
      | none => true
      | some t => u.utype == t)
  && (match f.college with
      | none => true
      | some c => u.colleges.any (fun col => col.name == c))

/-- A request whose six required fields are all present but whose
`fullName` is the (falsy) empty string. -/
def emptyNameReq : ApplyReq :=
  { fullName := some "", birthDate := some "1990-01-01",
    nationalId := some "nid1", address := some "addr",
    phoneNumber := some "0100", total := some "1000",
    paymentMethod := some "card", college := some "Engineering",
    email := some "Ana@X.com" }

/-- A concrete server state for witnesses. -/
def demoState : ServerState :=
  { users := demoUsers, universities := [alphaU], applications := [] }

/-!  Helper lemmas shared by the claim theorems. -/

lemma truthy_some_of_ne (s : String) (h : s ≠ "") : truthy (some s) = true := by
  have : s.isEmpty = false := by
    cases he : s.isEmpty
    · rfl
    · exact absurd (String.isEmpty_iff s |>.mp he) h
  simp [truthy, this]

lemma signup_success_eq (hash : String → String) (now : Nat)
    (users : List Account) (name email password : String)
    (hn : name ≠ "") (he : email ≠ "") (hp : password ≠ "")
    (hdup : users.any (fun u => jsLower u.email == jsLower email) = false) :
    signup hash now users ⟨some name, some email, some password⟩
      = ((201, .obj [("id", .str (toString now)), ("name", .str name),
                     ("email", .str email)]),
         users ++ [⟨toString now, name, email, hash password⟩]) := by
  unfold signup
  simp [truthy_some_of_ne _ hn, truthy_some_of_ne _ he, truthy_some_of_ne _ hp, hdup]

lemma signup_conflict_eq (hash : String → String) (now : Nat)
    (users : List Account) (name email password : String)
    (hn : name ≠ "") (he : email ≠ "") (hp : password ≠ "")
    (hdup : users.any (fun u => jsLower u.email == jsLower email) = true) :
    signup hash now users ⟨some name, some email, some password⟩
      = ((409, .obj [("error", .str "Email already registered")]), users) := by
  unfold signup
  simp [truthy_some_of_ne _ hn, truthy_some_of_ne _ he, truthy_some_of_ne _ hp, hdup]

lemma signup_invalid_state (hash : String → String) (now : Nat)
    (users : List Account) (req : SignupReq)
    (h : (truthy req.name && truthy req.email && truthy req.password) = false) :
    signup hash now users req
      = ((400, .obj [("error", .str "Missing fields")]), users) := by
  unfold signup
  simp [h]

/-- Case enumeration of a signup call: invalid input, conflict, or append of
exactly one account. -/
lemma signup_cases (hash : String → String) (now : Nat) (users : List Account)
    (req : SignupReq) :
    ((signup hash now users req).1.1 = 400 ∧ (signup hash now users req).2 = users)
    ∨ ((signup hash now users req).1.1 = 409 ∧ (signup hash now users req).2 = users)
    ∨ ((signup hash now users req).1.1 = 201 ∧
        (signup hash now users req).2
          = users ++ [⟨toString now, req.name.getD "", req.email.getD "",
                       hash (req.password.getD "")⟩]
        ∧ users.any (fun u => jsLower u.email == jsLower (req.email.getD "")) = false) := by
  unfold signup
  split
  · exact Or.inl ⟨rfl, rfl⟩
  · rename_i hcond
    dsimp only
    split
    · exact Or.inr (Or.inl ⟨rfl, rfl⟩)
    · rename_i hdup
      exact Or.inr (Or.inr ⟨rfl, rfl, by simpa using hdup⟩)

/-- C2: a login whose email matches no stored account and a login whose
email matches an account but whose password fails verification produce
literally the same response — status 401 with body
`{error: "Invalid email or password"}` — so the two runs are
observationally indistinguishable to the caller. -/
theorem login_unauthorized_indistinguishable
    (verify : String → String → Bool) (users1 users2 : List Account)
    (e p : String) (he : e ≠ "") (hp : p ≠ "")
    (h1 : users1.find? (fun u => jsLower u.email == jsLower e) = none)
    (h2 : ∃ u, users2.find? (fun u => jsLower u.email == jsLower e) = some u ∧
          verify p u.passwordHash = false) :
    login verify users1 (some e) (some p) = login verify users2 (some e) (some p)
    ∧ login verify users1 (some e) (some p)
        = (401, JValue.obj [("error", JValue.str "Invalid email or password")]) := by
  obtain ⟨u, hu, hv⟩ := h2
  unfold login
  simp [truthy_some_of_ne _ he, truthy_some_of_ne _ hp, h1, hu, hv]

/-- Witness for C2 at a concrete store and request. -/
theorem login_unauthorized_indistinguishable_witness :
    login demoVerify [] (some "ana@x.com") (some "wrong")
      = login demoVerify demoUsers (some "ana@x.com") (some "wrong")
    ∧ login demoVerify [] (some "ana@x.com") (some "wrong")
        = (401, JValue.obj [("error", JValue.str "Invalid email or password")]) :=
  login_unauthorized_indistinguishable demoVerify [] demoUsers
    "ana@x.com" "wrong" (by decide) (by decide) rfl
    ⟨anaAccount, by decide, by decide⟩

/-- C5: with all six required fields present, an application submission is
rejected with 403 Forbidden exactly when no stored account's email equals
the supplied `applicantEmail` under case-sensitive (`===`) comparison, and
the rejection writes nothing.  In particular an account whose email differs
only in case does not authorize the submission (see the witness). -/
theorem submit_forbidden_iff_no_exact_email
    (users : List Account) (apps : List Application) (now : Nat)
    (nowISO : String) (req : ApplyReq)
    (h1 : truthy req.fullName = true) (h2 : truthy req.birthDate = true)
    (h3 : truthy req.nationalId = true) (h4 : truthy req.address = true)
    (h5 : truthy req.phoneNumber = true) (h6 : truthy req.college = true) :
    ((submitApplication users apps now nowISO req).1.1 = 403 ↔
      ¬ ∃ u ∈ users, req.email = some u.email)
    ∧ ((submitApplication users apps now nowISO req).1.1 = 403 →
        (submitApplication users apps now nowISO req).2 = apps) := by
  unfold submitApplication
  simp only [h1, h2, h3, h4, h5, h6, Bool.and_self, Bool.and_true, Bool.true_and,
    Bool.not_true, Bool.false_eq_true, if_false]
  cases hfind : users.find? (fun u => req.email == some u.email) with
  | none =>
    have hnone := List.find?_eq_none.mp hfind
    constructor
    · constructor
      · intro _
        rintro ⟨u, hu, hequ⟩
        exact hnone u hu (by simp [hequ])
      · intro _
        rfl
    · intro _
      rfl
  | some u =>
    have hmem := List.mem_of_find?_eq_some hfind
    have hpu := List.find?_some hfind
    constructor
    · constructor
      · intro h
        exact absurd h (by simp)
      · intro hno
        exact absurd ⟨u, hmem, by simpa using hpu⟩ hno
    · intro h
      exact absurd h (by simp)

/-- Witness for C5: the stored account is `Ana@X.com`, the submission uses
`ana@x.com` (same email up to case), and is rejected with 403. -/
theorem submit_forbidden_iff_no_exact_email_witness :
    (submitApplication demoUsers [] 5 "2026-01-01T00:00:00.000Z"
        ⟨some "Ana Doe", some "1990-01-01", some "nid1", some "addr",
         some "0100", some "1000", some "card", some "Engineering",
         some "ana@x.com"⟩).1.1 = 403 :=
  ((submit_forbidden_iff_no_exact_email demoUsers [] 5 "2026-01-01T00:00:00.000Z"
      ⟨some "Ana Doe", some "1990-01-01", some "nid1", some "addr",
       some "0100", some "1000", some "card", some "Engineering",
       some "ana@x.com"⟩
      (by decide) (by decide) (by decide) (by decide) (by decide) (by decide)).1).mpr
    (by decide)

lemma find?_append_right {α} (p : α → Bool) (l : List α) (x : α)
    (h : ∀ a ∈ l, p a = false) (hx : p x = true) :
    (l ++ [x]).find? p = some x := by
  rw [List.find?_append, List.find?_eq_none.mpr (by intro a ha; simp [h a ha])]
  simp [List.find?_cons_of_pos _ hx]

lemma find?_set_of_findIdx?_eq_some {α} (p : α → Bool) (l : List α) (i : Nat)
    (x : α) (hfound : l.findIdx? p = some i) (hx : p x = true) :
    (l.set i x).find? p = some x := by
  induction l generalizing i with
  | nil => simp [List.findIdx?] at hfound
  | cons a t ih =>
    rw [List.findIdx?_cons] at hfound
    by_cases ha : p a = true
    · rw [if_pos ha] at hfound
      obtain rfl : i = 0 := by simpa using hfound.symm
      simpa using List.find?_cons_of_pos t hx
    · rw [if_neg ha, List.findIdx?_succ] at hfound
      cases hj : t.findIdx? p with
      | none => rw [hj] at hfound; simp at hfound
      | some j =>
        rw [hj] at hfound
        have hij : i = j + 1 := by simpa using hfound.symm
        subst hij
        simpa [List.find?_cons_of_neg _ ha] using ih j hj

/-- C7: creating an institution overwrites whatever id the caller supplied
with the server-assigned `Date.now()` id (two bodies differing only in id
create identically), responds 201 with the stored record, and — as long as
the assigned id is not already taken — that record is immediately
retrievable by `getById` under the assigned id, field for field. -/
theorem create_ignores_caller_id_roundtrip
    (now : Nat) (store : List Institution) (body : Institution) (otherId : Nat)
    (hfresh : ∀ u ∈ store, u.id ≠ now) :
    createUniversity now store body
      = createUniversity now store { body with id := otherId }
    ∧ (createUniversity now store body).1 = (201, { body with id := now })
    ∧ getUniversity (createUniversity now store body).2 now
        = some { body with id := now } := by
  refine ⟨rfl, rfl, ?_⟩
  unfold createUniversity getUniversity
  dsimp only
  exact find?_append_right _ store _ (fun a ha => by simp [hfresh a ha]) (by simp)

/-- Witness for C7 at a concrete store and body carrying a stale id 99. -/
theorem create_ignores_caller_id_roundtrip_witness :
    createUniversity 2 [alphaU] ⟨99, "Beta U", "Private", []⟩
      = createUniversity 2 [alphaU] ⟨5, "Beta U", "Private", []⟩
    ∧ (createUniversity 2 [alphaU] ⟨99, "Beta U", "Private", []⟩).1
        = (201, ⟨2, "Beta U", "Private", []⟩)
    ∧ getUniversity (createUniversity 2 [alphaU] ⟨99, "Beta U", "Private", []⟩).2 2
        = some ⟨2, "Beta U", "Private", []⟩ :=
  create_ignores_caller_id_roundtrip 2 [alphaU] ⟨99, "Beta U", "Private", []⟩ 5
    (by decide)

/-- C8: replacing an institution by path id fails with 404 and writes
nothing when no stored record carries that id; otherwise it stores the
supplied record with its id field forced to the path id (whatever id the
body carried), a lookup under the path id now returns that record, and the
collection keeps its size. -/
theorem replace_forces_path_id (store : List Institution) (id : Nat)
    (body : Institution) :
    ((∀ u ∈ store, u.id ≠ id) →
      replaceUniversity store id body = ((404, none), store))
    ∧ ((∃ u ∈ store, u.id = id) →
        (replaceUniversity store id body).1 = (200, some { body with id := id })
        ∧ getUniversity (replaceUniversity store id body).2 id
            = some { body with id := id }
        ∧ (replaceUniversity store id body).2.length = store.length) := by
  constructor
  · intro h
    unfold replaceUniversity
    rw [List.findIdx?_eq_none_iff.mpr (fun u hu => by simp [h u hu])]
  · rintro ⟨u, hu, hid⟩
    have hnonone : store.findIdx? (fun u => u.id == id) ≠ none := by
      rw [Ne, List.findIdx?_eq_none_iff]
      intro hall
      exact absurd (hall u hu) (by simp [hid])
    cases hidx : store.findIdx? (fun u => u.id == id) with
    | none => exact absurd hidx hnonone
    | some i =>
      refine ⟨?_, ?_, ?_⟩ <;> simp only [replaceUniversity, getUniversity, hidx]
      · exact find?_set_of_findIdx?_eq_some _ store i _ hidx (by simp)
      · simp

/-- Witness for C8: the body arrives with id 77 but is stored under the
path id 1. -/
theorem replace_forces_path_id_witness :
    (replaceUniversity [alphaU] 1 ⟨77, "Gamma U", "National", []⟩).1
      = (200, some ⟨1, "Gamma U", "National", []⟩)
    ∧ getUniversity (replaceUniversity [alphaU] 1 ⟨77, "Gamma U", "National", []⟩).2 1
        = some ⟨1, "Gamma U", "National", []⟩
    ∧ (replaceUniversity [alphaU] 1 ⟨77, "Gamma U", "National", []⟩).2.length = 1 :=
  (replace_forces_path_id [alphaU] 1 ⟨77, "Gamma U", "National", []⟩).2
    ⟨alphaU, by decide, rfl⟩

/-- C9: for every stored catalog and every combination of the three
optional filters (each either omitted or a nonempty string — an empty
query-string parameter is falsy and the route ignores it), the query
returns exactly the institutions satisfying the conjunction of the
supplied filters, and the reported total is the number of returned
items. -/
lemma isEmpty_false_of_ne (s : String) (h : s ≠ "") : s.isEmpty = false := by
  cases he : s.isEmpty
  · rfl
  · exact absurd ((String.isEmpty_iff s).mp he) h

lemma filter_specMatches (store : List Institution) (q t c : Option String) :
    store.filter (specMatches ⟨q, t, c⟩)
      = store.filter (fun u =>
          (match q with
           | none => true
           | some s => strIncludes (jsLower u.name) (jsLower s))
          && (match t with
              | none => true
              | some s => u.utype == s)
          && (match c with
              | none => true
              | some s => u.colleges.any (fun col => col.name == s))) :=
  List.filter_congr (fun _ _ => rfl)

theorem query_conjunction_of_filters (store : List Institution) (f : UniQuery)
    (hq : ∀ s, f.q = some s → s ≠ "")
    (ht : ∀ s, f.utype = some s → s ≠ "")
    (hc : ∀ s, f.college = some s → s ≠ "") :
    queryUniversities store f
      = (store.filter (specMatches f), (store.filter (specMatches f)).length) := by
  obtain ⟨q, t, c⟩ := f
  have hmain : (queryUniversities store ⟨q, t, c⟩).1
      = store.filter (specMatches ⟨q, t, c⟩) := by
    unfold queryUniversities
    dsimp only
    rw [filter_specMatches]
    cases q with
    | none => cases t with
      | none => cases c with
        | none => simp [truthy]
        | some s =>
          have hs := isEmpty_false_of_ne s (hc s rfl)
          simp [truthy, hs]
      | some s => cases c with
        | none =>
          have hs := isEmpty_false_of_ne s (ht s rfl)
          simp [truthy, hs]
        | some s2 =>
          have hs := isEmpty_false_of_ne s (ht s rfl)
          have hs2 := isEmpty_false_of_ne s2 (hc s2 rfl)
          simp [truthy, hs, hs2, List.filter_filter, Bool.and_comm,
            Bool.and_left_comm, Bool.and_assoc]
    | some s0 =>
      have hs0 := isEmpty_false_of_ne s0 (hq s0 rfl)
      cases t with
      | none => cases c with
        | none => simp [truthy, hs0]
        | some s =>
          have hs := isEmpty_false_of_ne s (hc s rfl)
          simp [truthy, hs0, hs, List.filter_filter, Bool.and_comm,
            Bool.and_left_comm, Bool.and_assoc]
      | some s => cases c with
        | none =>
          have hs := isEmpty_false_of_ne s (ht s rfl)
          simp [truthy, hs0, hs, List.filter_filter, Bool.and_comm,
            Bool.and_left_comm, Bool.and_assoc]
        | some s2 =>
          have hs := isEmpty_false_of_ne s (ht s rfl)
          have hs2 := isEmpty_false_of_ne s2 (hc s2 rfl)
          simp [truthy, hs0, hs, hs2, List.filter_filter, Bool.and_comm,
            Bool.and_left_comm, Bool.and_assoc]
  calc queryUniversities store ⟨q, t, c⟩
      = ((queryUniversities store ⟨q, t, c⟩).1,
         (queryUniversities store ⟨q, t, c⟩).1.length) := rfl
    _ = (store.filter (specMatches ⟨q, t, c⟩),
         (store.filter (specMatches ⟨q, t, c⟩)).length) := by rw [hmain]

/-- Witness for C9: the spec's §8 scenario — with `Alpha U` stored, a
college filter `Engineering` returns exactly that record, a college filter
`Arts` returns the empty sequence with total 0. -/
theorem query_conjunction_of_filters_witness :
    queryUniversities [alphaU] ⟨none, none, some "Engineering"⟩
      = ([alphaU].filter (specMatches ⟨none, none, some "Engineering"⟩),
         ([alphaU].filter (specMatches ⟨none, none, some "Engineering"⟩)).length)
    ∧ queryUniversities [alphaU] ⟨none, none, some "Engineering"⟩ = ([alphaU], 1)
    ∧ queryUniversities [alphaU] ⟨none, none, some "Arts"⟩ = ([], 0) :=
  ⟨query_conjunction_of_filters [alphaU] ⟨none, none, some "Engineering"⟩
      (fun s h => by cases h) (fun s h => by cases h)
      (fun s h => by cases h; decide),
   by decide, by decide⟩

/-- Case enumeration of an application submission: invalid input, forbidden,
or append of exactly one `Pending` record. -/
lemma submit_cases (users : List Account) (apps : List Application)
    (now : Nat) (nowISO : String) (req : ApplyReq) :
    ((submitApplication users apps now nowISO req).1.1 = 400 ∧
      (submitApplication users apps now nowISO req).2 = apps)
    ∨ ((submitApplication users apps now nowISO req).1.1 = 403 ∧
        (submitApplication users apps now nowISO req).2 = apps)
    ∨ ((submitApplication users apps now nowISO req).1.1 = 201 ∧
        ∃ a, (submitApplication users apps now nowISO req).2 = apps ++ [a]
          ∧ a.status = "Pending" ∧ a.submittedAt = nowISO) := by
  unfold submitApplication
  split
  · exact Or.inl ⟨rfl, rfl⟩
  · dsimp only
    split
    · exact Or.inr (Or.inl ⟨rfl, rfl⟩)
    · exact Or.inr (Or.inr ⟨rfl, _, rfl, rfl, rfl⟩)

lemma submit_missing_eq (users : List Account) (apps : List Application)
    (now : Nat) (nowISO : String) (req : ApplyReq)
    (hcond : (truthy req.fullName && truthy req.birthDate &&
        truthy req.nationalId && truthy req.address &&
        truthy req.phoneNumber && truthy req.college) = false) :
    submitApplication users apps now nowISO req = ((400, none), apps) := by
  unfold submitApplication
  simp [hcond]

lemma submit_present_status (users : List Account) (apps : List Application)
    (now : Nat) (nowISO : String) (req : ApplyReq)
    (hcond : (truthy req.fullName && truthy req.birthDate &&
        truthy req.nationalId && truthy req.address &&
        truthy req.phoneNumber && truthy req.college) = true) :
    (submitApplication users apps now nowISO req).1.1 = 403
    ∨ (submitApplication users apps now nowISO req).1.1 = 201 := by
  unfold submitApplication
  simp only [hcond, Bool.not_true, Bool.false_eq_true, if_false]
  split
  · exact Or.inl rfl
  · exact Or.inr rfl

/-- Counterexample to C6 as stated: every one of the six required fields is
present in this request (none is absent), yet the submission is rejected
with 400 InvalidInput, because the route tests JS truthiness and the empty
string is falsy. -/
theorem submit_invalid_input_cex :
    (submitApplication demoUsers [] 0 "2026-01-01T00:00:00.000Z" emptyNameReq).1.1 = 400
    ∧ emptyNameReq.fullName ≠ none ∧ emptyNameReq.birthDate ≠ none
    ∧ emptyNameReq.nationalId ≠ none ∧ emptyNameReq.address ≠ none
    ∧ emptyNameReq.phoneNumber ≠ none ∧ emptyNameReq.college ≠ none := by
  decide

/-- C6 amended: submit fails with 400 InvalidInput iff at least one of the
six fields {fullName, birthDate, nationalId, address, phoneNumber, college}
is absent or empty (JS-falsy); `total` and `paymentMethod` never enter that
check; and on success the stored record is appended with status fixed to
`Pending` and `submittedAt` set to the creation timestamp. -/
theorem submit_invalid_iff_required_falsy (users : List Account)
    (apps : List Application) (now : Nat) (nowISO : String) (req : ApplyReq) :
    ((submitApplication users apps now nowISO req).1.1 = 400 ↔
      ¬(truthy req.fullName = true ∧ truthy req.birthDate = true ∧
        truthy req.nationalId = true ∧ truthy req.address = true ∧
        truthy req.phoneNumber = true ∧ truthy req.college = true))
    ∧ (∀ u, users.find? (fun v => req.email == some v.email) = some u →
        truthy req.fullName = true → truthy req.birthDate = true →
        truthy req.nationalId = true → truthy req.address = true →
        truthy req.phoneNumber = true → truthy req.college = true →
        (submitApplication users apps now nowISO req).1.1 = 201
        ∧ (submitApplication users apps now nowISO req).2
            = apps ++ [{ id := now, userId := u.id,
                          fullName := req.fullName.getD "",
                          birthDate := req.birthDate.getD "",
                          nationalId := req.nationalId.getD "",
                          address := req.address.getD "",
                          phoneNumber := req.phoneNumber.getD "",
                          total := req.total,
                          paymentMethod := req.paymentMethod,
                          applicantEmail := req.email,
                          college := req.college.getD "",
                          status := "Pending", submittedAt := nowISO }]) := by
  constructor
  · by_cases hcond : (truthy req.fullName && truthy req.birthDate &&
        truthy req.nationalId && truthy req.address &&
        truthy req.phoneNumber && truthy req.college) = true
    · have hstat := submit_present_status users apps now nowISO req hcond
      have hprops : truthy req.fullName = true ∧ truthy req.birthDate = true ∧
          truthy req.nationalId = true ∧ truthy req.address = true ∧
          truthy req.phoneNumber = true ∧ truthy req.college = true := by
        simpa [Bool.and_eq_true, and_assoc] using hcond
      constructor
      · intro h400
        rcases hstat with h | h <;> omega
      · intro hno
        exact absurd hprops hno
    · have hcond' : (truthy req.fullName && truthy req.birthDate &&
          truthy req.nationalId && truthy req.address &&
          truthy req.phoneNumber && truthy req.college) = false := by
        cases h : (truthy req.fullName && truthy req.birthDate &&
            truthy req.nationalId && truthy req.address &&
            truthy req.phoneNumber && truthy req.college)
        · rfl
        · exact absurd h hcond
      rw [submit_missing_eq users apps now nowISO req hcond']
      constructor
      · intro _
        intro hall
        apply hcond
        simp [Bool.and_eq_true, and_assoc]
        tauto
      · intro _
        rfl
  · intro u hfu h1 h2 h3 h4 h5 h6
    unfold submitApplication
    simp only [h1, h2, h3, h4, h5, h6, Bool.and_self, Bool.not_true,
      Bool.false_eq_true, if_false, hfu]
    exact ⟨trivial, trivial⟩

/-- Witness for C6 (amended): a fully valid demo submission is stored as
`Pending` with the supplied timestamp. -/
theorem submit_invalid_iff_required_falsy_witness :
    (submitApplication demoUsers [] 9 "2026-01-02T00:00:00.000Z"
        ⟨some "Ana Doe", some "1990-01-01", some "nid1", some "addr",
         some "0100", some "1000", some "card", some "Engineering",
         some "Ana@X.com"⟩).1.1 = 201
    ∧ (submitApplication demoUsers [] 9 "2026-01-02T00:00:00.000Z"
        ⟨some "Ana Doe", some "1990-01-01", some "nid1", some "addr",
         some "0100", some "1000", some "card", some "Engineering",
         some "Ana@X.com"⟩).2
        = [] ++ [{ id := 9, userId := anaAccount.id,
                    fullName := "Ana Doe", birthDate := "1990-01-01",
                    nationalId := "nid1", address := "addr",
                    phoneNumber := "0100",
                    total := some "1000", paymentMethod := some "card",
                    applicantEmail := some "Ana@X.com",
                    college := "Engineering",
                    status := "Pending",
                    submittedAt := "2026-01-02T00:00:00.000Z" }] :=
  (submit_invalid_iff_required_falsy demoUsers [] 9 "2026-01-02T00:00:00.000Z"
      ⟨some "Ana Doe", some "1990-01-01", some "nid1", some "addr",
       some "0100", some "1000", some "card", some "Engineering",
       some "Ana@X.com"⟩).2 anaAccount (by decide) (by decide) (by decide)
    (by decide) (by decide) (by decide) (by decide)

/-- Counterexample to C4 as stated: `accounts.json` containing `{}` parses
as JSON but lacks the expected `users` array.  `readDB` returns it without
any shape validation, so the accounts load does not yield an empty
sequence — every caller's `db.users.<array method>` access throws instead
(modelled as `none`), surfacing the storage condition as an error. -/
theorem accounts_load_shape_cex :
    dbUsers (Except.ok (JValue.obj [])) = none
    ∧ dbUsers (Except.ok (JValue.obj [])) ≠ some [] :=
  ⟨rfl, fun h => Option.noConfusion h⟩

/-- C4 amended: `readUniversities` and `readApplications` return the empty
sequence whenever the backing file is absent/unreadable/unparseable or its
parsed value does not have the expected collection shape; the accounts
load (`readDB` + the `users` access) downgrades only
absent/unreadable/unparseable files to the empty sequence — it yields a
sequence exactly for well-shaped values, and a parseable value without a
`users` array surfaces as an error (`none`) instead of an empty
sequence. -/
lemma readUniversities_ok_obj (fields : List (String × JValue)) :
    readUniversities (Except.ok (JValue.obj fields))
      = match lookupField fields "items" with
        | some (JValue.arr xs) => xs
        | _ => [] := by
  cases hl : lookupField fields "items" with
  | none => simp [readUniversities, jsGet, hl]
  | some w => cases w <;> simp [readUniversities, jsGet, hl]

lemma dbUsers_ok_obj (fields : List (String × JValue)) :
    dbUsers (Except.ok (JValue.obj fields))
      = match lookupField fields "users" with
        | some (JValue.arr xs) => some xs
        | _ => none := by
  cases hl : lookupField fields "users" with
  | none => simp [dbUsers, readDB, jsGet, hl]
  | some w => cases w <;> simp [dbUsers, readDB, jsGet, hl]

theorem load_lenient_amended :
    (readUniversities (Except.error ()) = [])
    ∧ (∀ v, hasItemsArray v = false → readUniversities (Except.ok v) = [])
    ∧ (readApplications (Except.error ()) = [])
    ∧ (∀ v, isArrayValue v = false → readApplications (Except.ok v) = [])
    ∧ (dbUsers (Except.error ()) = some [])
    ∧ (∀ v, hasUsersArray v = true → ∃ xs, dbUsers (Except.ok v) = some xs)
    ∧ (∀ v, hasUsersArray v = false → dbUsers (Except.ok v) = none) := by
  refine ⟨rfl, ?_, rfl, ?_, rfl, ?_, ?_⟩
  · intro v h
    cases v with
    | null => rfl
    | bool b => rfl
    | num n => rfl
    | str s => rfl
    | arr xs => rfl
    | obj fields =>
      simp only [hasItemsArray] at h
      rw [readUniversities_ok_obj]
      cases hl : lookupField fields "items" with
      | none => rfl
      | some w =>
        rw [hl] at h
        cases w with
        | null => rfl
        | bool b => rfl
        | num n => rfl
        | str s => rfl
        | arr xs => simp at h
        | obj fs2 => rfl
  · intro v h
    cases v with
    | null => rfl
    | bool b => rfl
    | num n => rfl
    | str s => rfl
    | arr xs => simp [isArrayValue] at h
    | obj fields => rfl
  · intro v h
    cases v with
    | null => simp [hasUsersArray] at h
    | bool b => simp [hasUsersArray] at h
    | num n => simp [hasUsersArray] at h
    | str s => simp [hasUsersArray] at h
    | arr xs => simp [hasUsersArray] at h
    | obj fields =>
      simp only [hasUsersArray] at h
      rw [dbUsers_ok_obj]
      cases hl : lookupField fields "users" with
      | none => rw [hl] at h; simp at h
      | some w =>
        rw [hl] at h
        cases w with
        | arr xs => exact ⟨xs, rfl⟩
        | null => simp at h
        | bool b => simp at h
        | num n => simp at h
        | str s => simp at h
        | obj fs2 => simp at h
  · intro v h
    cases v with
    | null => rfl
    | bool b => rfl
    | num n => rfl
    | str s => rfl
    | arr xs => rfl
    | obj fields =>
      simp only [hasUsersArray] at h
      rw [dbUsers_ok_obj]
      cases hl : lookupField fields "users" with
      | none => rfl
      | some w =>
        rw [hl] at h
        cases w with
        | null => rfl
        | bool b => rfl
        | num n => rfl
        | str s => rfl
        | arr xs => simp at h
        | obj fs2 => rfl

/-- Witness for C4 (amended) on concrete parse outcomes: a universities
file holding `5`, an applications file holding `{}`, and an accounts file
holding `{"users":[]}`. -/
theorem load_lenient_amended_witness :
    readUniversities (Except.ok (JValue.num 5)) = []
    ∧ readApplications (Except.ok (JValue.obj [])) = []
    ∧ (∃ xs, dbUsers (Except.ok (JValue.obj [("users", JValue.arr [])]))
        = some xs)
    ∧ dbUsers (Except.ok (JValue.str "oops")) = none :=
  ⟨load_lenient_amended.2.1 (JValue.num 5) rfl,
   load_lenient_amended.2.2.2.1 (JValue.obj []) rfl,
   load_lenient_amended.2.2.2.2.2.1 (JValue.obj [("users", JValue.arr [])]) rfl,
   load_lenient_amended.2.2.2.2.2.2 (JValue.str "oops") rfl⟩

/-- C10: whenever an operation answers an error status (400 InvalidInput,
401 Unauthorized, 403 Forbidden, 404 NotFound, 409 Conflict), it performs
no write: all three persisted collections are exactly as before the call.
Login never writes at all, and create never errors (it always answers
201). -/
theorem error_status_writes_nothing :
    (∀ hash now s req, 400 ≤ (signupS hash now s req).1.1 →
        (signupS hash now s req).2 = s)
    ∧ (∀ verify s e p, (loginS verify s e p).2 = s)
    ∧ (∀ s now nowISO req, 400 ≤ (submitS s now nowISO req).1.1 →
        (submitS s now nowISO req).2 = s)
    ∧ (∀ now s body, (createUniversityS now s body).1.1 = 201)
    ∧ (∀ s id body, 400 ≤ (replaceUniversityS s id body).1.1 →
        (replaceUniversityS s id body).2 = s)
    ∧ (∀ s id, 400 ≤ (deleteUniversityS s id).1.1 →
        (deleteUniversityS s id).2 = s)
    ∧ (∀ s id, 400 ≤ (deleteApplicationS s id).1.1 →
        (deleteApplicationS s id).2 = s) := by
  refine ⟨?_, fun _ _ _ _ => rfl, ?_, fun _ _ _ => rfl, ?_, ?_, ?_⟩
  · intro hash now s req h
    unfold signupS at h ⊢
    dsimp only at h ⊢
    rcases signup_cases hash now s.users req with ⟨h1, h2⟩ | ⟨h1, h2⟩ | ⟨h1, _, _⟩
    · rw [h2]
    · rw [h2]
    · rw [h1] at h
      omega
  · intro s now nowISO req h
    unfold submitS at h ⊢
    dsimp only at h ⊢
    rcases submit_cases s.users s.applications now nowISO req with
      ⟨h1, h2⟩ | ⟨h1, h2⟩ | ⟨h1, _⟩
    · rw [h2]
    · rw [h2]
    · rw [h1] at h
      omega
  · intro s id body h
    unfold replaceUniversityS replaceUniversity at h ⊢
    cases hidx : s.universities.findIdx? (fun u => u.id == id) with
    | none => simp only [hidx] at h ⊢
    | some i =>
      simp only [hidx] at h
      omega
  · intro s id h
    unfold deleteUniversityS deleteUniversity at h ⊢
    dsimp only at h ⊢
    cases hc : s.universities.length
        == (s.universities.filter (fun u => u.id != id)).length with
    | true => simp only [hc, if_true] at h ⊢
    | false =>
      simp only [hc, Bool.false_eq_true, if_false] at h
      omega
  · intro s id h
    unfold deleteApplicationS deleteApplication at h ⊢
    dsimp only at h ⊢
    cases hc : s.applications.length
        == (s.applications.filter (fun a => a.id != id)).length with
    | true => simp only [hc, if_true] at h ⊢
    | false =>
      simp only [hc, Bool.false_eq_true, if_false] at h
      omega

/-- Witness for C10: a signup missing its name, a submission by an unknown
account, and deletions of absent ids leave the whole state untouched. -/
theorem error_status_writes_nothing_witness :
    (signupS demoHash 3 demoState ⟨none, some "e@x.com", some "pw"⟩).2 = demoState
    ∧ (submitS demoState 4 "2026-01-01T00:00:00.000Z"
        ⟨some "N", some "b", some "n", some "a", some "p", none, none,
         some "c", some "ghost@x.com"⟩).2 = demoState
    ∧ (deleteUniversityS demoState 42).2 = demoState
    ∧ (deleteApplicationS demoState 42).2 = demoState :=
  ⟨error_status_writes_nothing.1 demoHash 3 demoState
      ⟨none, some "e@x.com", some "pw"⟩ (by decide),
   error_status_writes_nothing.2.2.1 demoState 4 "2026-01-01T00:00:00.000Z"
      ⟨some "N", some "b", some "n", some "a", some "p", none, none,
       some "c", some "ghost@x.com"⟩ (by decide),
   error_status_writes_nothing.2.2.2.2.2.1 demoState 42 (by decide),
   error_status_writes_nothing.2.2.2.2.2.2 demoState 42 (by decide)⟩

lemma any_email_iff (users : List Account) (email : String) :
    users.any (fun u => jsLower u.email == jsLower email) = true ↔
    ∃ u ∈ users, jsLower u.email = jsLower email := by
  simp [List.any_eq_true]

lemma any_email_false_of_not_ex (users : List Account) (email : String)
    (h : ¬ ∃ u ∈ users, jsLower u.email = jsLower email) :
    users.any (fun u => jsLower u.email == jsLower email) = false := by
  cases hany : users.any (fun u => jsLower u.email == jsLower email)
  · rfl
  · exact absurd ((any_email_iff users email).mp hany) h

/-- Every reachable accounts store has pairwise case-insensitively distinct
emails. -/
lemma reachable_emailsOk {users : List Account}
    (h : ReachableAccounts users) : emailsOk users := by
  induction h with
  | nil => exact List.Pairwise.nil
  | step hash now users req hr ih =>
    rcases signup_cases hash now users req with ⟨_, h2⟩ | ⟨_, h2⟩ | ⟨_, h2, h3⟩
    · rw [h2]; exact ih
    · rw [h2]; exact ih
    · rw [h2]
      rw [emailsOk, List.pairwise_append]
      refine ⟨ih, by simp, ?_⟩
      intro a ha b hb
      have hb' : b = (⟨toString now, req.name.getD "", req.email.getD "",
          hash (req.password.getD "")⟩ : Account) := by simpa using hb
      subst hb'
      have := List.any_eq_false.mp h3 a ha
      simpa using this

/-- C1: every reachable accounts store has no two accounts with emails
equal ignoring case; a signup (with all fields present) whose email
matches an existing account case-insensitively fails with 409 Conflict and
leaves the collection unchanged, otherwise it appends exactly one new
account; and a second signup whose email differs from a just-accepted one
only in case fails with 409. -/
theorem signup_unique_email_invariant
    (hash : String → String) (now : Nat) (users : List Account)
    (name email password : String) (hreach : ReachableAccounts users)
    (hn : name ≠ "") (he : email ≠ "") (hp : password ≠ "") :
    emailsOk users
    ∧ ((∃ u ∈ users, jsLower u.email = jsLower email) →
        signup hash now users ⟨some name, some email, some password⟩
          = ((409, .obj [("error", .str "Email already registered")]), users))
    ∧ ((¬ ∃ u ∈ users, jsLower u.email = jsLower email) →
        signup hash now users ⟨some name, some email, some password⟩
          = ((201, .obj [("id", .str (toString now)), ("name", .str name),
                         ("email", .str email)]),
             users ++ [⟨toString now, name, email, hash password⟩]))
    ∧ (∀ now2 name2 email2 password2,
        name2 ≠ "" → email2 ≠ "" → password2 ≠ "" →
        jsLower email2 = jsLower email →
        (¬ ∃ u ∈ users, jsLower u.email = jsLower email) →
        (signup hash now2
            (signup hash now users ⟨some name, some email, some password⟩).2
            ⟨some name2, some email2, some password2⟩).1.1 = 409) := by
  refine ⟨reachable_emailsOk hreach, ?_, ?_, ?_⟩
  · intro hex
    exact signup_conflict_eq hash now users name email password hn he hp
      ((any_email_iff users email).mpr hex)
  · intro hnex
    exact signup_success_eq hash now users name email password hn he hp
      (any_email_false_of_not_ex users email hnex)
  · intro now2 name2 email2 password2 hn2 he2 hp2 heq hnex
    have hstate : (signup hash now users ⟨some name, some email, some password⟩).2
        = users ++ [⟨toString now, name, email, hash password⟩] := by
      rw [signup_success_eq hash now users name email password hn he hp
        (any_email_false_of_not_ex users email hnex)]
    rw [hstate,
      signup_conflict_eq hash now2 _ name2 email2 password2 hn2 he2 hp2
        ((any_email_iff _ email2).mpr
          ⟨⟨toString now, name, email, hash password⟩, by simp, by
            simpa using heq.symm⟩)]

/-- Witness for C1: after the demo signup of `Ana@X.com`, the store
satisfies the invariant and a signup with `ana@x.com` is rejected with
409 Conflict, leaving the store unchanged. -/
theorem signup_unique_email_invariant_witness :
    emailsOk demoUsers
    ∧ signup demoHash 8 demoUsers ⟨some "Ana2", some "ana@x.com", some "pw9"⟩
        = ((409, .obj [("error", .str "Email already registered")]), demoUsers) :=
  have h := signup_unique_email_invariant demoHash 8 demoUsers
    "Ana2" "ana@x.com" "pw9"
    (ReachableAccounts.step demoHash 0 []
      ⟨some "Ana", some "Ana@X.com", some "pw123"⟩ ReachableAccounts.nil)
    (by decide) (by decide) (by decide)
  ⟨h.1, h.2.1 (by decide)⟩

/-- C3: a successful signup responds 201 with a summary whose keys are
exactly {id, name, email} — never the password hash — a successful login
responds 200 with the same shape of summary, and running any sequence of
valid signups whose emails are pairwise distinct ignoring case (and fresh
for the starting store) grows the accounts collection by exactly one
account per signup. -/
theorem summaries_hide_hash_and_count
    (hash : String → String) (verify : String → String → Bool) :
    (∀ now users name email password, name ≠ "" → email ≠ "" → password ≠ "" →
      users.any (fun u => jsLower u.email == jsLower email) = false →
      jKeys (signup hash now users ⟨some name, some email, some password⟩).1.2
          = ["id", "name", "email"]
      ∧ "passwordHash" ∉
          jKeys (signup hash now users ⟨some name, some email, some password⟩).1.2)
    ∧ (∀ users e p u, e ≠ "" → p ≠ "" →
        users.find? (fun v => jsLower v.email == jsLower e) = some u →
        verify p u.passwordHash = true →
        login verify users (some e) (some p)
          = (200, .obj [("id", .str u.id), ("name", .str u.name),
                        ("email", .str u.email)])
        ∧ jKeys (login verify users (some e) (some p)).2 = ["id", "name", "email"]
        ∧ "passwordHash" ∉ jKeys (login verify users (some e) (some p)).2)
    ∧ (∀ reqs users,
        (∀ r ∈ reqs, ∃ n e p,
          (r : Nat × SignupReq).2 = SignupReq.mk (some n) (some e) (some p)
          ∧ n ≠ "" ∧ e ≠ "" ∧ p ≠ "") →
        List.Pairwise (fun a b : Nat × SignupReq =>
          jsLower (a.2.email.getD "") ≠ jsLower (b.2.email.getD "")) reqs →
        (∀ r ∈ reqs, ∀ u ∈ users,
          jsLower u.email ≠ jsLower ((r : Nat × SignupReq).2.email.getD "")) →
        (runSignups hash users reqs).length = users.length + reqs.length) := by
  refine ⟨?_, ?_, ?_⟩
  · intro now users name email password hn he hp hany
    rw [signup_success_eq hash now users name email password hn he hp hany]
    exact ⟨rfl, by simp [jKeys]⟩
  · intro users e p u he hp hfind hverify
    have hlogin : login verify users (some e) (some p)
        = (200, .obj [("id", .str u.id), ("name", .str u.name),
                      ("email", .str u.email)]) := by
      unfold login
      simp [truthy_some_of_ne _ he, truthy_some_of_ne _ hp, hfind, hverify]
    rw [hlogin]
    exact ⟨rfl, rfl, by simp [jKeys]⟩
  · intro reqs
    induction reqs with
    | nil => intro users _ _ _; simp [runSignups]
    | cons r rest ih =>
      intro users hvalid hpair hfresh
      obtain ⟨now1, req1⟩ := r
      obtain ⟨n, e, p, hreq, hn, he, hp⟩ := hvalid (now1, req1) (by simp)
      have hany : users.any (fun u => jsLower u.email == jsLower e) = false := by
        apply List.any_eq_false.mpr
        intro u hu
        have := hfresh (now1, req1) (by simp) u hu
        rw [hreq] at this
        simpa using this
      have hreq1 : req1 = SignupReq.mk (some n) (some e) (some p) := hreq
      simp only [runSignups]
      rw [hreq1, signup_success_eq hash now1 users n e p hn he hp hany]
      dsimp only
      have hpair' := (List.pairwise_cons.mp hpair)
      have hfresh2 : ∀ r ∈ rest,
          ∀ u ∈ users ++ [(⟨toString now1, n, e, hash p⟩ : Account)],
            jsLower u.email ≠ jsLower ((r : Nat × SignupReq).2.email.getD "") := by
        intro r hr u hu
        rcases List.mem_append.mp hu with hu1 | hu2
        · exact hfresh r (List.mem_cons_of_mem _ hr) u hu1
        · have hu' : u = (⟨toString now1, n, e, hash p⟩ : Account) := by
            simpa using hu2
          subst hu'
          have hne := hpair'.1 r hr
          rw [hreq1] at hne
          simpa using hne
      have hlen := ih (users ++ [(⟨toString now1, n, e, hash p⟩ : Account)])
        (fun r hr => hvalid r (List.mem_cons_of_mem _ hr)) hpair'.2 hfresh2
      rw [hlen]
      simp [List.length_append]
      omega

/-- Witness for C3: two demo signups with distinct emails produce a store
of two accounts, and concrete signup/login summaries carry exactly
{id, name, email}. -/
theorem summaries_hide_hash_and_count_witness :
    (jKeys (signup demoHash 1 [] ⟨some "Bob", some "bob@x.com", some "pw"⟩).1.2
        = ["id", "name", "email"]
      ∧ "passwordHash" ∉
          jKeys (signup demoHash 1 [] ⟨some "Bob", some "bob@x.com", some "pw"⟩).1.2)
    ∧ (login demoVerify demoUsers (some "ANA@X.COM") (some "pw123")
        = (200, .obj [("id", .str anaAccount.id), ("name", .str anaAccount.name),
                      ("email", .str anaAccount.email)])
      ∧ jKeys (login demoVerify demoUsers (some "ANA@X.COM") (some "pw123")).2
          = ["id", "name", "email"]
      ∧ "passwordHash" ∉
          jKeys (login demoVerify demoUsers (some "ANA@X.COM") (some "pw123")).2)
    ∧ (runSignups demoHash []
        [(1, ⟨some "Bob", some "bob@x.com", some "pw"⟩),
         (2, ⟨some "Cat", some "cat@x.com", some "pw"⟩)]).length = 0 + 2 :=
  ⟨(summaries_hide_hash_and_count demoHash demoVerify).1 1 [] "Bob" "bob@x.com"
      "pw" (by decide) (by decide) (by decide) (by decide),
   (summaries_hide_hash_and_count demoHash demoVerify).2.1 demoUsers
      "ANA@X.COM" "pw123" anaAccount (by decide) (by decide) (by decide)
      (by decide),
   (summaries_hide_hash_and_count demoHash demoVerify).2.2
      [(1, ⟨some "Bob", some "bob@x.com", some "pw"⟩),
       (2, ⟨some "Cat", some "cat@x.com", some "pw"⟩)] []
      (by intro r hr
          fin_cases hr
          · exact ⟨"Bob", "bob@x.com", "pw", rfl, by decide, by decide, by decide⟩
          · exact ⟨"Cat", "cat@x.com", "pw", rfl, by decide, by decide, by decide⟩)
      (by simp [List.pairwise_cons]
          decide)
      (by intro r hr u hu
          simp at hu)⟩
